import Mathlib

/-!
Verification of the learnpad notebook-generation client and its collaborators.

The definitions below are shallow embeddings of the TypeScript source of the
repository (the project-creation chat component with its progress-polling
loop and retry handlers, the API error classifier, and the file-tree
transformation utility), together with models, written from the
specification text, of the backend parts whose Python source is not part of
the snapshot (the generation orchestrator progress updates and the storage
path layout).
-/

/- ============================================================ -/
/- Status poller: embedding of pollProgress in the project      -/
/- creation chat component.                                     -/
/- ============================================================ -/

/-- Poll interval in milliseconds: setInterval(pollProgress, 2000). -/
def pollIntervalMs : Nat := 2000

/-- Maximum poll attempts: const maxPollAttempts = 30 (comment in the
source: Max 1 minute of polling, 30 times 2s). -/
def maxPollAttempts : Nat := 30

/-- The nested progress payload the client reads from a successful
get-status response: response.progress.current_step and
response.progress.percentage. -/
structure ProgressInfo where
  current_step : Option String
  percentage : Option Nat
deriving DecidableEq

/-- Result of one get-status read as seen by pollProgress: a successful
response (with its status string and optional progress payload), an HTTP
failure carrying err.response.status, or a network failure with no
response object. -/
inductive ReadResult where
  | ok (status : String) (progress : Option ProgressInfo)
  | httpErr (status : Nat)
  | netErr
deriving DecidableEq

/-- True exactly for a successful HTTP read. -/
def ReadResult.isOk : ReadResult → Bool
  | .ok _ _ => true
  | _ => false

/-- Ways the polling loop stops (clearing its interval). -/
inductive PollOutcome where
  | stopComplete
  | stopError
  | stopTimeout
  | stopNotFound
deriving DecidableEq

/-- One execution of the pollProgress callback, for the given (1-based)
attempt number and read result.  Returns some outcome when the callback
clears the interval, none when polling continues.  Mirrors the source:
the terminal-status checks are guarded by the truthiness of
response.progress; the attempt-budget check runs only on a successful
read; in the catch branch only a 404 stops the loop, every other failure
(5xx, network, other) lets polling continue. -/
def pollStep (attempt : Nat) (r : ReadResult) : Option PollOutcome :=
  match r with
  | .ok status progress =>
    match progress with
    | some _ =>
      if status = "complete" then some .stopComplete
      else if status = "error" then some .stopError
      else if maxPollAttempts ≤ attempt then some .stopTimeout
      else none
    | none =>
      if maxPollAttempts ≤ attempt then some .stopTimeout
      else none
  | .httpErr code =>
    if code = 404 then some .stopNotFound
    else none
  | .netErr => none

/-- Run the polling loop from attempt number k, where rs gives the read
result of each attempt.  Returns some (finalAttempt, outcome) if the loop
stops within the given number of further attempts, and none if it is
still polling after all of them. -/
def pollRun (rs : Nat → ReadResult) : Nat → Nat → Option (Nat × PollOutcome)
  | _, 0 => none
  | k, fuel + 1 =>
    match pollStep k (rs k) with
    | some out => some (k, out)
    | none => pollRun rs (k + 1) fuel

/- Cancellation model for the poller (C7).  The component keeps the
interval id in progressIntervalRef; both the effect cleanup that runs
when the conversation step leaves generating and the unmount cleanup
call clearInterval on it and nothing else. -/

/-- State of the client-side polling loop: whether the interval is still
installed, and how many poll attempts have run. -/
structure PollerState where
  timerActive : Bool
  attempts : Nat

/-- The cleanup executed on unmount or when the step leaves generating:
clearInterval(progressIntervalRef.current).  It only deactivates the
local timer. -/
def cancelPolling (st : PollerState) : PollerState :=
  { st with timerActive := false }

/-- One timer tick.  If the interval is active the callback runs: it
issues exactly one get-status request and, depending on the outcome,
may clear the interval itself.  If the interval is not active nothing
runs.  The second component counts get-status requests issued during
the tick. -/
def tick (rs : Nat → ReadResult) (st : PollerState) : PollerState × Nat :=
  if st.timerActive then
    let k := st.attempts + 1
    match pollStep k (rs k) with
    | some _ => ({ timerActive := false, attempts := k }, 1)
    | none => ({ timerActive := true, attempts := k }, 1)
  else (st, 0)

/-- Total number of get-status requests issued over the next n timer
ticks. -/
def requestsIssued (rs : Nat → ReadResult) (st : PollerState) : Nat → Nat
  | 0 => 0
  | n + 1 =>
    let p := tick rs st
    p.2 + requestsIssued rs p.1 n

/-- HTTP methods used by the API client. -/
inductive HttpMethod where
  | get
  | post
  | put
  | delete
deriving DecidableEq

/-- getNotebookStatus in the API client performs
apiClient.get(/api/notebooks/id): a plain GET. -/
def getNotebookStatusMethod : HttpMethod := HttpMethod.get

/-- Whether a request with this method mutates server-side state. -/
def HttpMethod.mutatesServer : HttpMethod → Bool
  | .get => false
  | _ => true

/- ============================================================ -/
/- Helper lemmas for the poller.                                -/
/- ============================================================ -/

theorem pollRun_ok_bounded (rs : Nat → ReadResult)
    (hok : ∀ j, (rs j).isOk = true) :
    ∀ fuel k, maxPollAttempts ≤ k + fuel →
      (pollRun rs k (fuel + 1)).isSome = true := by
  intro fuel
  induction fuel with
  | zero =>
    intro k hk
    have h := hok k
    rcases hrs : rs k with ⟨status, progress⟩ | code | _
    · rw [pollRun, hrs]
      rcases progress with _ | p
      · rw [pollStep]
        simp only [Nat.add_zero] at hk
        simp [hk]
      · rw [pollStep]
        simp only [Nat.add_zero] at hk
        by_cases h1 : status = "complete" <;> by_cases h2 : status = "error" <;>
          simp [h1, h2, hk]
    · rw [hrs] at h; simp [ReadResult.isOk] at h
    · rw [hrs] at h; simp [ReadResult.isOk] at h
  | succ fuel ih =>
    intro k hk
    rw [pollRun]
    rcases hstep : pollStep k (rs k) with _ | out
    · exact ih (k + 1) (by omega)
    · simp

theorem tick_inactive (rs : Nat → ReadResult) (st : PollerState)
    (h : st.timerActive = false) : tick rs st = (st, 0) := by
  rw [tick, h]
  simp

/- ============================================================ -/
/- Claim theorems C1, C2, C3, C7.                               -/
/- ============================================================ -/

/-- Claim C1, counterexample.  The claim says the poller stops polling as
soon as a read returns a terminal status.  On the code this is false: the
terminal-status checks are inside the truthiness guard on
response.progress, so a run whose every read reports status complete but
carries no progress payload is not stopped at the first such read; the
loop keeps polling and only stops at attempt 30 with the timeout
outcome. -/
theorem pollRun_terminal_without_progress_keeps_polling :
    pollRun (fun _ => ReadResult.ok "complete" none) 1 35 =
      some (30, PollOutcome.stopTimeout) := by
  decide

/-- Claim C1, amended.  The Status Poller polls on a fixed 2-second
interval; it stops as soon as a read returns a terminal status (complete
or error) together with a truthy progress payload; and in any run in
which every read succeeds it stops after at most 30 poll attempts. -/
theorem pollProgress_stop_conditions :
    pollIntervalMs = 2000 ∧
    (∀ (rs : Nat → ReadResult) (k fuel : Nat) (p : ProgressInfo),
      rs k = ReadResult.ok "complete" (some p) →
      pollRun rs k (fuel + 1) = some (k, PollOutcome.stopComplete)) ∧
    (∀ (rs : Nat → ReadResult) (k fuel : Nat) (p : ProgressInfo),
      rs k = ReadResult.ok "error" (some p) →
      pollRun rs k (fuel + 1) = some (k, PollOutcome.stopError)) ∧
    (∀ rs : Nat → ReadResult, (∀ j, (rs j).isOk = true) →
      (pollRun rs 1 maxPollAttempts).isSome = true) := by
  refine ⟨rfl, ?_, ?_, ?_⟩
  · intro rs k fuel p hrs
    rw [pollRun, hrs, pollStep]
    simp
  · intro rs k fuel p hrs
    rw [pollRun, hrs, pollStep]
    simp
  · intro rs hok
    have h := pollRun_ok_bounded rs hok 29 1 (by decide)
    exact h

/-- Claim C1, witness: the amended stop conditions hold at concrete
inputs. -/
theorem pollProgress_stop_conditions_witness :
    pollRun (fun _ => ReadResult.ok "complete" (some ⟨some "done", some 100⟩)) 1 1 =
      some (1, PollOutcome.stopComplete) ∧
    pollRun (fun _ => ReadResult.ok "error" (some ⟨none, some 40⟩)) 2 3 =
      some (2, PollOutcome.stopError) ∧
    (pollRun (fun _ => ReadResult.ok "generating" none) 1 maxPollAttempts).isSome = true :=
  ⟨pollProgress_stop_conditions.2.1 _ 1 0 _ rfl,
   pollProgress_stop_conditions.2.2.1 _ 2 2 _ rfl,
   pollProgress_stop_conditions.2.2.2 _ (fun _ => rfl)⟩

/-- Claim C2: whenever the poller is at attempt k and that read fails
with a definitive HTTP 404, the loop stops at attempt k itself (no
further polling attempts are made, whatever results later reads would
have produced) and surfaces the terminal not-found outcome. -/
theorem pollRun_notFound_stops_immediately :
    ∀ (rs : Nat → ReadResult) (k fuel : Nat),
      rs k = ReadResult.httpErr 404 →
      pollRun rs k (fuel + 1) = some (k, PollOutcome.stopNotFound) := by
  intro rs k fuel hrs
  rw [pollRun, hrs, pollStep]
  simp

/-- Claim C2, witness: polling a missing job stops at the very first
read with the not-found outcome. -/
theorem pollRun_notFound_stops_immediately_witness :
    pollRun (fun _ => ReadResult.httpErr 404) 1 10 =
      some (1, PollOutcome.stopNotFound) :=
  pollRun_notFound_stops_immediately _ 1 9 rfl

/-- Claim C3: a run in which every get-status read fails transiently
(HTTP 5xx here, network failure alike) never stops: the attempt-budget
check lives in the success path only, so the 30-attempt budget is never
applied and the loop polls beyond any bound, contradicting the source
comment that polling is capped at 30 attempts (about one minute). -/
theorem pollRun_all_transient_never_stops :
    (∀ fuel k, pollRun (fun _ => ReadResult.httpErr 503) k fuel = none) ∧
    (∀ fuel k, pollRun (fun _ => ReadResult.netErr) k fuel = none) := by
  constructor
  · intro fuel
    induction fuel with
    | zero => intro k; rfl
    | succ fuel ih =>
      intro k
      rw [pollRun]
      simp only [pollStep]
      norm_num
      exact ih (k + 1)
  · intro fuel
    induction fuel with
    | zero => intro k; rfl
    | succ fuel ih =>
      intro k
      rw [pollRun]
      simp only [pollStep]
      exact ih (k + 1)

/-- Claim C7: once the poller is cancelled (clearInterval via the effect
cleanup or unmount cleanup), no further get-status request is ever
issued on any later tick, whatever the job reads would have returned;
and the only request the poller ever makes is a GET, which does not
mutate server-side job state. -/
theorem cancelPolling_stops_requests_and_is_readonly :
    (∀ (rs : Nat → ReadResult) (st : PollerState) (n : Nat),
      requestsIssued rs (cancelPolling st) n = 0) ∧
    HttpMethod.mutatesServer getNotebookStatusMethod = false := by
  constructor
  · intro rs st n
    have hcancel : (cancelPolling st).timerActive = false := rfl
    induction n with
    | zero => rfl
    | succ n ih =>
      rw [requestsIssued]
      rw [tick_inactive rs (cancelPolling st) hcancel]
      simpa using ih
  · rfl

/- ============================================================ -/
/- Retry with backoff in the assessment, curriculum-planning    -/
/- and generation handlers (C6).                                -/
/- ============================================================ -/

/-- Result of one upstream request in the assessment, planning or
generation flow: success, an HTTP failure with its status code, or the
browser being offline. -/
inductive UpstreamResult where
  | success
  | httpFailure (code : Nat)
  | offline
deriving DecidableEq

/-- How a run of one of the handlers ends:
succeeded - the request went through at the given retryCount;
surfacedError - the handler called setError and appended an error
message (the failure is surfaced, not swallowed);
sessionEnded - a 401 or 404 ended the conversation (also surfaced via
setError). -/
inductive FlowOutcome where
  | succeeded (retryCount : Nat)
  | surfacedError (retryCount : Nat)
  | sessionEnded (retryCount : Nat)
deriving DecidableEq

/-- The final retryCount of a flow outcome. -/
def FlowOutcome.retries : FlowOutcome → Nat
  | .succeeded rc => rc
  | .surfacedError rc => rc
  | .sessionEnded rc => rc

/-- Retry parameters of one handler: the maxRetries constant and the
setTimeout delays used before retrying after a 429 and after a 5xx,
as functions of the current retryCount. -/
structure RetryPolicy where
  maxRetries : Nat
  rateLimitDelay : Nat → Nat
  serverErrorDelay : Nat → Nat

/-- handleSendAssessmentMessage: maxRetries = 2,
429 delay 2000 * (retryCount + 1), 5xx delay 1000 * (retryCount + 1). -/
def assessmentPolicy : RetryPolicy :=
  ⟨2, fun rc => 2000 * (rc + 1), fun rc => 1000 * (rc + 1)⟩

/-- handleCurriculumPlanning: maxRetries = 2,
429 delay 3000 * (retryCount + 1), 5xx delay 2000 * (retryCount + 1). -/
def curriculumPolicy : RetryPolicy :=
  ⟨2, fun rc => 3000 * (rc + 1), fun rc => 2000 * (rc + 1)⟩

/-- handleNotebookGeneration: maxRetries = 1 (fewer retries as generation
is more expensive), 429 delay 5000 * (retryCount + 1), 5xx delay
3000 * (retryCount + 1). -/
def generationPolicy : RetryPolicy :=
  ⟨1, fun rc => 5000 * (rc + 1), fun rc => 3000 * (rc + 1)⟩

/-- One handler run from the given retryCount, where res gives the result
of the attempt at each retryCount.  Mirrors the error branch chain of the
source handlers: 401 and 404 end the conversation; a 429 with
retryCount < maxRetries schedules a retry after rateLimitDelay;
a status of at least 500 with retryCount < maxRetries schedules a retry
after serverErrorDelay; everything else (including a transient failure
once the budget is spent) surfaces the error.  Returns the outcome and
the list of backoff delays that were slept between attempts. -/
def runFlow (pol : RetryPolicy) (res : Nat → UpstreamResult) (rc : Nat) :
    FlowOutcome × List Nat :=
  match res rc with
  | .success => (.succeeded rc, [])
  | .httpFailure code =>
    if code = 401 ∨ code = 404 then (.sessionEnded rc, [])
    else if h : code = 429 ∧ rc < pol.maxRetries then
      let rest := runFlow pol res (rc + 1)
      (rest.1, pol.rateLimitDelay rc :: rest.2)
    else if h : 500 ≤ code ∧ rc < pol.maxRetries then
      let rest := runFlow pol res (rc + 1)
      (rest.1, pol.serverErrorDelay rc :: rest.2)
    else (.surfacedError rc, [])
  | .offline => (.surfacedError rc, [])
  termination_by pol.maxRetries - rc
  decreasing_by all_goals omega

theorem runFlow_retries_le (pol : RetryPolicy) (res : Nat → UpstreamResult) :
    ∀ rc, (runFlow pol res rc).1.retries ≤ max pol.maxRetries rc := by
  intro rc
  induction rc using runFlow.induct pol res with
  | case1 rc hres =>
    rw [runFlow, hres]; simp [FlowOutcome.retries]
  | case2 rc code hres hcode =>
    rw [runFlow, hres]; simp [hcode, FlowOutcome.retries]
  | case3 rc code hres hcode h ih =>
    rw [runFlow, hres]
    simp only [if_neg hcode, dif_pos h]
    have h2 := h.2
    simp
    omega
  | case4 rc code hres hcode h1 h2 ih =>
    rw [runFlow, hres]
    simp only [if_neg hcode, dif_neg h1, dif_pos h2]
    have h3 := h2.2
    simp
    omega
  | case5 rc code hres hcode h1 h2 =>
    rw [runFlow, hres]
    simp only [if_neg hcode, dif_neg h1, dif_neg h2]
    simp [FlowOutcome.retries]
  | case6 rc hres =>
    rw [runFlow, hres]; simp [FlowOutcome.retries]

/-- Claim C6: in the assessment and generation handlers, a transient
upstream failure (HTTP 429 rate limit or 5xx) is retried up to the
bounded budget (at most maxRetries retries, so at most maxRetries + 1
attempts); when every attempt fails transiently, the run ends in a
surfaced error (setError plus an error message), never silently
swallowed; and the backoff delays slept between attempts strictly
increase geometrically (each delay is exactly twice the previous one:
2000 then 4000 ms for rate limits, 1000 then 2000 ms for server errors
in the assessment handler; the generation handler sleeps a single
delay). -/
theorem flow_retries_bounded_backoff_surfaced :
    (∀ res : Nat → UpstreamResult,
      (runFlow assessmentPolicy res 0).1.retries ≤ 2 ∧
      (runFlow generationPolicy res 0).1.retries ≤ 1) ∧
    runFlow assessmentPolicy (fun _ => .httpFailure 429) 0 =
      (.surfacedError 2, [2000, 4000]) ∧
    runFlow assessmentPolicy (fun _ => .httpFailure 503) 0 =
      (.surfacedError 2, [1000, 2000]) ∧
    runFlow generationPolicy (fun _ => .httpFailure 429) 0 =
      (.surfacedError 1, [5000]) ∧
    runFlow generationPolicy (fun _ => .httpFailure 503) 0 =
      (.surfacedError 1, [3000]) ∧
    List.Chain' (fun a b => a < b ∧ b = 2 * a)
      (runFlow assessmentPolicy (fun _ => .httpFailure 429) 0).2 ∧
    List.Chain' (fun a b => a < b ∧ b = 2 * a)
      (runFlow assessmentPolicy (fun _ => .httpFailure 503) 0).2 := by
  refine ⟨?_, ?_, ?_, ?_, ?_, ?_, ?_⟩
  · intro res
    constructor
    · have h := runFlow_retries_le assessmentPolicy res 0
      simpa [assessmentPolicy] using h
    · have h := runFlow_retries_le generationPolicy res 0
      simpa [generationPolicy] using h
  · rw [runFlow, runFlow, runFlow]; norm_num [assessmentPolicy]
  · rw [runFlow, runFlow, runFlow]; norm_num [assessmentPolicy]
  · rw [runFlow, runFlow]; norm_num [generationPolicy]
  · rw [runFlow, runFlow]; norm_num [generationPolicy]
  · rw [runFlow, runFlow, runFlow]; norm_num [assessmentPolicy]
  · rw [runFlow, runFlow, runFlow]; norm_num [assessmentPolicy]

/- ============================================================ -/
/- ApiErrorHandler (C10): embedding of errors.ts.               -/
/- ============================================================ -/

/-- The normalized ApiError shape produced by ApiErrorHandler. -/
structure ApiError where
  message : String
  status : Option Nat
  code : Option String
deriving DecidableEq

/-- An axios error as consumed by handleAxiosError: the optional
response status (none when no response arrived, the network-error case)
and optional response-body detail, plus the error message. -/
structure AxiosErrorModel where
  responseStatus : Option Nat
  dataDetail : Option String
  message : String

namespace ApiErrorHandler

/-- data?.detail || fallback. -/
def detailOr (d : Option String) (fallback : String) : String :=
  match d with
  | some s => if s = "" then fallback else s
  | none => fallback

/-- handleAxiosError from errors.ts: 401, 403 and 422 are mapped to
their dedicated codes, any status of at least 500 to SERVER_ERROR, a
missing response to NETWORK_ERROR, and any other status to an
HTTP_status code. -/
def handleAxiosError (e : AxiosErrorModel) : ApiError :=
  match e.responseStatus with
  | some s =>
    if s = 401 then
      { message := detailOr e.dataDetail "Authentication required",
        status := some 401, code := some "UNAUTHORIZED" }
    else if s = 403 then
      { message := detailOr e.dataDetail "Access denied",
        status := some 403, code := some "FORBIDDEN" }
    else if s = 422 then
      { message := detailOr e.dataDetail "Validation error",
        status := some 422, code := some "VALIDATION_ERROR" }
    else if 500 ≤ s then
      { message := "Server error occurred. Please try again later.",
        status := some s, code := some "SERVER_ERROR" }
    else
      { message := detailOr e.dataDetail "Request failed",
        status := some s, code := some ("HTTP_" ++ toString s) }
  | none =>
    { message := "Network error. Please check your connection and try again.",
      status := none, code := some "NETWORK_ERROR" }

/-- isNetworkError: the code is NETWORK_ERROR. -/
def isNetworkError (e : ApiError) : Bool :=
  e.code = some "NETWORK_ERROR"

/-- isRetryableError: status 500, 502, 503 or 504, or a network error. -/
def isRetryableError (e : ApiError) : Bool :=
  e.status = some 500 ||
  e.status = some 502 ||
  e.status = some 503 ||
  e.status = some 504 ||
  isNetworkError e

end ApiErrorHandler

/-- Claim C10: isRetryableError classifies an error as retryable exactly
when its HTTP status is 500, 502, 503 or 504 or its code is
NETWORK_ERROR; in particular, the ApiError produced for an HTTP 429
rate-limit response and the one produced for an HTTP 501 response are
not retryable, while a 503 response and a response-less network failure
are. -/
theorem isRetryableError_characterization :
    (∀ e : ApiError,
      ApiErrorHandler.isRetryableError e = true ↔
        (e.status = some 500 ∨ e.status = some 502 ∨ e.status = some 503 ∨
         e.status = some 504 ∨ e.code = some "NETWORK_ERROR")) ∧
    ApiErrorHandler.isRetryableError
      (ApiErrorHandler.handleAxiosError ⟨some 429, none, "Request failed"⟩) = false ∧
    ApiErrorHandler.isRetryableError
      (ApiErrorHandler.handleAxiosError ⟨some 501, none, "Request failed"⟩) = false ∧
    ApiErrorHandler.isRetryableError
      (ApiErrorHandler.handleAxiosError ⟨some 503, none, "Request failed"⟩) = true ∧
    ApiErrorHandler.isRetryableError
      (ApiErrorHandler.handleAxiosError ⟨none, none, "Network Error"⟩) = true := by
  refine ⟨?_, by decide, by decide, by decide, by decide⟩
  intro e
  simp only [ApiErrorHandler.isRetryableError, ApiErrorHandler.isNetworkError,
    Bool.or_eq_true, decide_eq_true_eq]
  tauto

/- ============================================================ -/
/- transformApiTreeToArborist (C9): embedding of tree-utils.ts. -/
/- ============================================================ -/

/-- The type tag of a tree entry: file or folder. -/
inductive EntryType where
  | file
  | folder
deriving DecidableEq

/-- ApiTreeItem from tree-utils.ts: type, path, optional size and
updated, and for folders an optional children record (modelled as an
association list in insertion order, since Object.entries preserves
it). -/
inductive ApiTreeItem where
  | mk (type : EntryType) (path : String) (size : Option Nat)
       (updated : Option String)
       (children : Option (List (String × ApiTreeItem)))

/-- FileTreeNode from tree-utils.ts: the react-arborist node shape. -/
inductive FileTreeNode where
  | mk (id name : String) (type : EntryType) (path : String)
       (size : Option Nat) (updated : Option String)
       (children : Option (List FileTreeNode))

/-- The name field of a node. -/
def FileTreeNode.name : FileTreeNode → String
  | .mk _ n _ _ _ _ _ => n

/-- The type field of a node. -/
def FileTreeNode.type : FileTreeNode → EntryType
  | .mk _ _ t _ _ _ _ => t

/-- The id field of a node. -/
def FileTreeNode.id : FileTreeNode → String
  | .mk i _ _ _ _ _ _ => i

/-- fullPath = parentPath ? parentPath/name : name. -/
def joinPath (parentPath name : String) : String :=
  if parentPath = "" then name else parentPath ++ "/" ++ name

/-- The sort comparator of transformApiTreeToArborist as a boolean
less-or-equal: when the types differ the folder comes first, otherwise
nodes compare by name (localeCompare modelled as the standard string
order). -/
def nodeLE (a b : FileTreeNode) : Bool :=
  if a.type = b.type then decide (a.name ≤ b.name)
  else decide (a.type = EntryType.folder)

/-- nodes.sort(comparator): a stable sort by the comparator. -/
def sortNodes (l : List FileTreeNode) : List FileTreeNode :=
  l.mergeSort nodeLE

/-- The loop body of transformApiTreeToArborist: one node per entry, id
the slash-joined full path, fields copied from the entry, children
transformed recursively (and sorted there) for folders that have a
children record. -/
def buildNodes : List (String × ApiTreeItem) → String → List FileTreeNode
  | [], _ => []
  | (name, ApiTreeItem.mk ty path size updated children) :: rest, parentPath =>
    let fullPath := joinPath parentPath name
    let childNodes : Option (List FileTreeNode) :=
      match ty, children with
      | EntryType.folder, some cs => some (sortNodes (buildNodes cs fullPath))
      | _, _ => none
    FileTreeNode.mk fullPath name ty path size updated childNodes ::
      buildNodes rest parentPath

/-- transformApiTreeToArborist: build one node per entry, then sort
folders first and then files, each group alphabetically by name. -/
def transformApiTreeToArborist (apiTree : List (String × ApiTreeItem))
    (parentPath : String) : List FileTreeNode :=
  sortNodes (buildNodes apiTree parentPath)

/-- The ordering the claim describes on adjacent output nodes: either a
folder before a file, or two nodes of the same type in ascending name
order. -/
def nodeOrdered (a b : FileTreeNode) : Prop :=
  (a.type = EntryType.folder ∧ b.type = EntryType.file) ∨
  (a.type = b.type ∧ a.name ≤ b.name)

mutual
/-- Correspondence between one input entry (key and item) and one output
node: name, type, path, size and updated are copied, the id is the
slash-joined path, and a folder entry with a children record gets a
children list that itself satisfies the specification (one node per
child entry, folders before files, names ascending). -/
inductive NodeMatches : String → String → ApiTreeItem → FileTreeNode → Prop where
  | leaf (parentPath name : String) (ty : EntryType) (path : String)
      (size : Option Nat) (updated : Option String)
      (childrenOpt : Option (List (String × ApiTreeItem)))
      (h : ty = EntryType.file ∨ childrenOpt = none) :
      NodeMatches parentPath name
        (ApiTreeItem.mk ty path size updated childrenOpt)
        (FileTreeNode.mk (joinPath parentPath name) name ty path size updated none)
  | folder (parentPath name path : String) (size : Option Nat)
      (updated : Option String) (cs : List (String × ApiTreeItem))
      (raw out : List FileTreeNode)
      (hraw : RawMatches (joinPath parentPath name) cs raw)
      (hperm : out.Perm raw)
      (hsorted : out.Pairwise nodeOrdered) :
      NodeMatches parentPath name
        (ApiTreeItem.mk EntryType.folder path size updated (some cs))
        (FileTreeNode.mk (joinPath parentPath name) name EntryType.folder
          path size updated (some out))

/-- Entry-by-entry correspondence between an input entry list and an
(unsorted) output node list: same length, i-th node matches i-th
entry. -/
inductive RawMatches : String → List (String × ApiTreeItem) → List FileTreeNode → Prop where
  | nil (parentPath : String) : RawMatches parentPath [] []
  | cons (parentPath name : String) (item : ApiTreeItem)
      (rest : List (String × ApiTreeItem)) (node : FileTreeNode)
      (nodes : List FileTreeNode)
      (hhead : NodeMatches parentPath name item node)
      (htail : RawMatches parentPath rest nodes) :
      RawMatches parentPath ((name, item) :: rest) (node :: nodes)
end

theorem nodeLE_trans : ∀ a b c : FileTreeNode,
    nodeLE a b = true → nodeLE b c = true → nodeLE a c = true := by
  intro a b c hab hbc
  unfold nodeLE at *
  by_cases h1 : a.type = b.type
  · by_cases h2 : b.type = c.type
    · rw [if_pos h1] at hab
      rw [if_pos h2] at hbc
      rw [if_pos (h1.trans h2)]
      simp only [decide_eq_true_eq] at *
      exact le_trans hab hbc
    · rw [if_pos h1] at hab
      rw [if_neg h2] at hbc
      have h3 : ¬ a.type = c.type := fun h => h2 (h1.symm.trans h)
      rw [if_neg h3]
      simp only [decide_eq_true_eq] at hbc ⊢
      exact h1.trans hbc
  · by_cases h2 : b.type = c.type
    · rw [if_neg h1] at hab
      have h3 : ¬ a.type = c.type := fun h => h1 (h.trans h2.symm)
      rw [if_neg h3]
      exact hab
    · rw [if_neg h1] at hab
      rw [if_neg h2] at hbc
      simp only [decide_eq_true_eq] at hab hbc
      exact absurd (hab.trans hbc.symm) h1

theorem nodeLE_total : ∀ a b : FileTreeNode,
    (nodeLE a b || nodeLE b a) = true := by
  intro a b
  unfold nodeLE
  by_cases h : a.type = b.type
  · rw [if_pos h, if_pos h.symm]
    rcases le_total a.name b.name with h1 | h1
    · simp [h1]
    · simp [h1]
  · rw [if_neg h, if_neg (fun hh => h hh.symm)]
    cases ha : a.type with
    | file =>
      cases hb : b.type with
      | file => exact absurd (ha.trans hb.symm) h
      | folder => simp [hb]
    | folder => simp [ha]

theorem nodeLE_imp_nodeOrdered : ∀ {a b : FileTreeNode},
    nodeLE a b = true → nodeOrdered a b := by
  intro a b h
  unfold nodeLE at h
  by_cases heq : a.type = b.type
  · rw [if_pos heq] at h
    exact Or.inr ⟨heq, by simpa using h⟩
  · rw [if_neg heq] at h
    simp only [decide_eq_true_eq] at h
    cases hb : b.type with
    | file => exact Or.inl ⟨h, hb⟩
    | folder => exact absurd (h.trans hb.symm) heq

theorem sortNodes_perm (l : List FileTreeNode) : (sortNodes l).Perm l :=
  List.mergeSort_perm l nodeLE

theorem sortNodes_pairwise (l : List FileTreeNode) :
    (sortNodes l).Pairwise nodeOrdered :=
  (List.sorted_mergeSort nodeLE_trans nodeLE_total l).imp nodeLE_imp_nodeOrdered

theorem buildNodes_rawMatches :
    ∀ (entries : List (String × ApiTreeItem)) (parentPath : String),
      RawMatches parentPath entries (buildNodes entries parentPath)
  | [], parentPath => by
    rw [buildNodes]
    exact RawMatches.nil parentPath
  | (name, ApiTreeItem.mk EntryType.file path size updated none) :: rest, parentPath => by
    simp only [buildNodes]
    exact RawMatches.cons parentPath name _ rest _ _
      (NodeMatches.leaf _ _ _ _ _ _ _ (Or.inl rfl))
      (buildNodes_rawMatches rest parentPath)
  | (name, ApiTreeItem.mk EntryType.file path size updated (some cs)) :: rest, parentPath => by
    simp only [buildNodes]
    exact RawMatches.cons parentPath name _ rest _ _
      (NodeMatches.leaf _ _ _ _ _ _ _ (Or.inl rfl))
      (buildNodes_rawMatches rest parentPath)
  | (name, ApiTreeItem.mk EntryType.folder path size updated none) :: rest, parentPath => by
    simp only [buildNodes]
    exact RawMatches.cons parentPath name _ rest _ _
      (NodeMatches.leaf _ _ _ _ _ _ _ (Or.inr rfl))
      (buildNodes_rawMatches rest parentPath)
  | (name, ApiTreeItem.mk EntryType.folder path size updated (some cs)) :: rest, parentPath => by
    simp only [buildNodes]
    exact RawMatches.cons parentPath name _ rest _ _
      (NodeMatches.folder _ _ _ _ _ _ _ _
        (buildNodes_rawMatches cs (joinPath parentPath name))
        (sortNodes_perm _) (sortNodes_pairwise _))
      (buildNodes_rawMatches rest parentPath)
  termination_by entries _ => sizeOf entries

/-- Claim C9: for every input API tree (entry list, in insertion order)
and parent path, transformApiTreeToArborist returns a permutation of a
raw node list that matches the entries one-for-one (name, type, path,
size and updated copied; id the slash-joined path from the root), and
the returned list is ordered with every folder before every file and
same-type nodes in ascending name order; through NodeMatches the same
holds recursively for every children list. -/
theorem transformApiTreeToArborist_spec :
    ∀ (apiTree : List (String × ApiTreeItem)) (parentPath : String),
      ∃ raw, RawMatches parentPath apiTree raw ∧
        (transformApiTreeToArborist apiTree parentPath).Perm raw ∧
        (transformApiTreeToArborist apiTree parentPath).Pairwise nodeOrdered := by
  intro apiTree parentPath
  exact ⟨buildNodes apiTree parentPath, buildNodes_rawMatches apiTree parentPath,
    sortNodes_perm _, sortNodes_pairwise _⟩

/- ============================================================ -/
/- Wire shape of the get-job-status response (C5).              -/
/- ============================================================ -/

/-- A JSON-like value, sufficient to express both the wire shape the
specification describes and the field accesses the polling client
performs. -/
inductive Json where
  | null
  | boolean (v : Bool)
  | str (s : String)
  | num (v : Int)
  | obj (fields : List (String × Json))
  | arr (elems : List Json)

/-- JavaScript truthiness of a value. -/
def Json.truthy : Json → Bool
  | .null => false
  | .boolean v => v
  | .str s => decide (s ≠ "")
  | .num v => decide (v ≠ 0)
  | .obj _ => true
  | .arr _ => true

/-- Property access v.k: some value for a present key of an object,
none (undefined) otherwise. -/
def Json.getField : Json → String → Option Json
  | .obj fields, k => List.lookup k fields
  | _, _ => none

/-- The JavaScript expression v || dflt for an optional property
access: the value when present and truthy, the default otherwise. -/
def jsOr (v : Option Json) (dflt : Json) : Json :=
  match v with
  | some j => if j.truthy then j else dflt
  | none => dflt

/-- What pollProgress consumes from a successful get-status response:
const progress = response.progress; if (progress) it renders
progress.current_step or the string Processing, and
progress.percentage or 0.  Returns none when response.progress is
absent or falsy (in which case nothing is rendered). -/
def clientProgressView (response : Json) : Option (Json × Json) :=
  match response.getField "progress" with
  | some p =>
    if p.truthy then
      some (jsOr (p.getField "current_step") (Json.str "Processing"),
            jsOr (p.getField "percentage") (Json.num 0))
    else none
  | none => none

/-- Modelled from the spec: the flat wire shape of the get-job-status
output that section 6 of the specification describes (the backend
handler in src/api/server.py is not part of the snapshot): status,
progress as a top-level integer, current_step as a top-level string,
and an artifacts array. -/
def specFlatStatusResponse (status : String) (progress : Int)
    (current_step : String) (artifacts : List Json) : Json :=
  Json.obj [("status", Json.str status), ("progress", Json.num progress),
            ("current_step", Json.str current_step),
            ("artifacts", Json.arr artifacts)]

/-- Claim C5, counterexample.  Feeding the polling client the flat wire
shape the claim describes (status generating, top-level progress 42,
top-level current_step), the client renders step Processing and
percentage 0: it looks for current_step and percentage inside
response.progress, so the flat shape is not the shape the polling
client consumes. -/
theorem clientView_flat_shape_loses_progress :
    clientProgressView
        (specFlatStatusResponse "generating" 42 "Generating section 1 of 3" []) =
      some (Json.str "Processing", Json.num 0) ∧
    (specFlatStatusResponse "generating" 42 "Generating section 1 of 3"
        []).getField "progress" = some (Json.num 42) := by
  constructor
  · rfl
  · rfl

/-- Claim C5, amended.  The shape the polling client consumes is nested:
a response whose progress field is an object with current_step and
percentage fields is rendered with exactly those two values (whenever
they are truthy); the top-level flat progress and current_step fields
of the spec wire shape are not what the client reads. -/
theorem clientView_consumes_nested_progress :
    ∀ (status current_step : String) (percentage : Int)
      (rest : List (String × Json)),
      current_step ≠ "" → percentage ≠ 0 →
      clientProgressView
          (Json.obj (("status", Json.str status) ::
            ("progress", Json.obj [("current_step", Json.str current_step),
                                   ("percentage", Json.num percentage)]) ::
            rest)) =
        some (Json.str current_step, Json.num percentage) := by
  intro status current_step percentage rest hc hp
  simp [clientProgressView, Json.getField, List.lookup, Json.truthy, jsOr, hc, hp]

/-- Claim C5, witness: the nested consumption holds at a concrete
generating-state response. -/
theorem clientView_consumes_nested_progress_witness :
    clientProgressView
        (Json.obj [("status", Json.str "generating"),
          ("progress", Json.obj [("current_step", Json.str "Generating section 2"),
                                 ("percentage", Json.num 40)]),
          ("artifacts", Json.arr [])]) =
      some (Json.str "Generating section 2", Json.num 40) :=
  clientView_consumes_nested_progress "generating" "Generating section 2" 40
    [("artifacts", Json.arr [])] (by decide) (by decide)

/- ============================================================ -/
/- Orchestrator progress updates (C4).                          -/
/- ============================================================ -/

/-- Modelled from the spec: the progress value the Generation
Orchestrator writes when it starts topic i of n (the backend
orchestrator in src/api/server.py and src/agents is not part of the
snapshot): floor of 10 + 85 * i / n, reserving the first 10 percent for
planning and the last 5 for finalization. -/
def topicProgress (n i : Nat) : Nat := 10 + 85 * i / n

/-- Modelled from the spec: the ordered progress values the orchestrator
writes to a job over its lifetime.  A successful run over n topics
writes 10 after planning, then topicProgress n i when starting topic i,
then 100 on completion.  A run that fails at topic f has written
through topicProgress n f and then freezes (the error transition never
lowers progress). -/
def progressUpdates (n : Nat) (failAt : Option Nat) : List Nat :=
  match failAt with
  | none => 10 :: (List.range' 1 n).map (topicProgress n) ++ [100]
  | some f => 10 :: (List.range' 1 f).map (topicProgress n)

/-- The value a poll reads after the first k updates of the list have
been applied on top of the initial value d (the job starts at progress
0); once the list is exhausted the last value persists. -/
def lastUpTo (d : Nat) : List Nat → Nat → Nat
  | _, 0 => d
  | [], _ + 1 => d
  | x :: xs, k + 1 => lastUpTo x xs k

/-- The progress value a get-job-status poll observes after the
orchestrator has performed k updates on a job with n topics that fails
at topic failAt (or runs to completion when failAt is none). -/
def observedProgress (n : Nat) (failAt : Option Nat) (k : Nat) : Nat :=
  lastUpTo 0 (progressUpdates n failAt) k

theorem lastUpTo_succ_le :
    ∀ (l : List Nat) (d k : Nat), List.Chain' (· ≤ ·) (d :: l) →
      lastUpTo d l k ≤ lastUpTo d l (k + 1) := by
  intro l
  induction l with
  | nil => intro d k _; cases k <;> simp [lastUpTo]
  | cons x xs ih =>
    intro d k hchain
    rw [List.chain'_cons] at hchain
    cases k with
    | zero => simpa [lastUpTo] using hchain.1
    | succ k => exact ih x k hchain.2

theorem lastUpTo_stable :
    ∀ (l : List Nat) (d k : Nat), l.length ≤ k → lastUpTo d l k = lastUpTo d l l.length := by
  intro l
  induction l with
  | nil => intro d k _; cases k <;> simp [lastUpTo]
  | cons x xs ih =>
    intro d k hk
    cases k with
    | zero => simp at hk
    | succ k =>
      rw [lastUpTo, List.length_cons, lastUpTo]
      exact ih x k (by simpa using hk)

theorem topicProgress_mono (n i : Nat) : topicProgress n i ≤ topicProgress n (i + 1) := by
  unfold topicProgress
  have h : 85 * i ≤ 85 * (i + 1) := by omega
  have := Nat.div_le_div_right (c := n) h
  omega

theorem chain'_map_topicProgress :
    ∀ (m s n prev : Nat), prev ≤ topicProgress n s →
      List.Chain' (· ≤ ·) (prev :: (List.range' s m).map (topicProgress n)) := by
  intro m
  induction m with
  | zero => intro s n prev _; simp
  | succ m ih =>
    intro s n prev hprev
    rw [List.range'_succ, List.map_cons, List.chain'_cons]
    exact ⟨hprev, ih (s + 1) n (topicProgress n s) (topicProgress_mono n s)⟩

theorem topicProgress_le_100 (n i : Nat) (hi : i ≤ n) : topicProgress n i ≤ 100 := by
  unfold topicProgress
  rcases Nat.eq_zero_or_pos n with hn | hn
  · subst hn; simp
  · have h1 : 85 * i ≤ 85 * n := by omega
    have h2 : 85 * i / n ≤ 85 * n / n := Nat.div_le_div_right h1
    have h3 : 85 * n / n = 85 := Nat.mul_div_cancel 85 hn
    omega

theorem chain'_map_topicProgress_final :
    ∀ (m s n prev : Nat), prev ≤ topicProgress n s → prev ≤ 100 →
      (∀ i, s ≤ i → i < s + m → topicProgress n i ≤ 100) →
      List.Chain' (· ≤ ·) (prev :: ((List.range' s m).map (topicProgress n) ++ [100])) := by
  intro m
  induction m with
  | zero =>
    intro s n prev _ hprev _
    simpa using hprev
  | succ m ih =>
    intro s n prev hprev hprev100 hall
    rw [List.range'_succ, List.map_cons, List.cons_append, List.chain'_cons]
    refine ⟨hprev, ih (s + 1) n (topicProgress n s) (topicProgress_mono n s) ?_ ?_⟩
    · exact hall s (le_refl s) (by omega)
    · intro i h1 h2
      exact hall i (by omega) (by omega)

theorem progressUpdates_chain' (n : Nat) (failAt : Option Nat) :
    List.Chain' (· ≤ ·) (0 :: progressUpdates n failAt) := by
  cases failAt with
  | none =>
    rw [progressUpdates]
    simp only [List.cons_append]
    rw [List.chain'_cons]
    refine ⟨by omega, ?_⟩
    refine chain'_map_topicProgress_final n 1 n 10 ?_ (by omega) ?_
    · exact Nat.le_add_right 10 (85 * 1 / n)
    · intro i h1 h2
      exact topicProgress_le_100 n i (by omega)
  | some f =>
    rw [progressUpdates, List.chain'_cons]
    refine ⟨by omega, ?_⟩
    refine chain'_map_topicProgress f 1 n 10 ?_
    exact Nat.le_add_right 10 (85 * 1 / n)

/-- Claim C4: for every job (any topic count n and any failure point,
or none), the progress values observed by repeated polls are
monotonically non-decreasing in the number of orchestrator updates that
have been applied; and after a failure at topic f no later poll ever
observes anything but the last successful value (progress stays
frozen). -/
theorem observedProgress_monotone_and_frozen :
    (∀ (n : Nat) (failAt : Option Nat) (s t : Nat), s ≤ t →
      observedProgress n failAt s ≤ observedProgress n failAt t) ∧
    (∀ (n f k : Nat),
      observedProgress n (some f) (f + 1 + k) = observedProgress n (some f) (f + 1)) := by
  constructor
  · intro n failAt
    have hmono : ∀ k, observedProgress n failAt k ≤ observedProgress n failAt (k + 1) := by
      intro k
      exact lastUpTo_succ_le (progressUpdates n failAt) 0 k (progressUpdates_chain' n failAt)
    intro s t hst
    exact monotone_nat_of_le_succ hmono hst
  · intro n f k
    have hlen : (progressUpdates n (some f)).length = f + 1 := by
      rw [progressUpdates]
      simp
    rw [observedProgress, observedProgress,
      lastUpTo_stable _ _ _
        (show (progressUpdates n (some f)).length ≤ f + 1 + k by omega),
      hlen]

/-- Claim C4, witness: monotonicity and freezing at a concrete job with
3 topics failing at topic 2. -/
theorem observedProgress_monotone_and_frozen_witness :
    observedProgress 3 (some 2) 1 ≤ observedProgress 3 (some 2) 5 ∧
    observedProgress 3 (some 2) 7 = observedProgress 3 (some 2) 3 :=
  ⟨observedProgress_monotone_and_frozen.1 3 (some 2) 1 5 (by omega),
   observedProgress_monotone_and_frozen.2 3 2 4⟩

/- ============================================================ -/
/- Storage sink path layout (C8).                               -/
/- ============================================================ -/

/-- Modelled from the spec: a decimal digit character, ASCII code
48 + d for a digit d below 10. -/
def specDigit (d : Nat) : Char := Char.ofNat (48 + d)

/-- Modelled from the spec: the two-digit zero-padded ordinal (the
ordinal:02d of section 4.4) of a topic position below 100. -/
def pad2 (n : Nat) : String := String.mk [specDigit (n / 10), specDigit (n % 10)]

/-- Modelled from the spec: the stored section file name
NN_topic_slug, where NN is the zero-padded position of the topic in
the curriculum plan (scenario A: sections/00_intro, 01_variables,
02_functions). -/
def sectionFileName (i : Nat) (slug : String) : String :=
  pad2 i ++ "_" ++ slug

/-- Modelled from the spec: the deterministic storage path
owner_id/notebooks/job_id/sections/NN_topic_slug of the artifact for
the topic at position i (the storage sink src/storage/gcs_storage.py
is not part of the snapshot). -/
def artifactPath (owner job : String) (i : Nat) (slug : String) : String :=
  owner ++ "/notebooks/" ++ job ++ "/sections/" ++ sectionFileName i slug

/-- The stored section file names of a plan, in plan order, starting
at position i. -/
def sectionNamesFrom : Nat → List String → List String
  | _, [] => []
  | i, slug :: rest => sectionFileName i slug :: sectionNamesFrom (i + 1) rest

/-- The stored section file names of a plan, in plan (generation)
order. -/
def sectionNames (slugs : List String) : List String :=
  sectionNamesFrom 0 slugs

theorem specDigit_lt (a b : Nat) (hab : a < b) (hb : b < 10) :
    specDigit a < specDigit b := by
  have ha : a < 10 := by omega
  interval_cases a <;> interval_cases b <;> decide

theorem string_lt_of_lex (s t : String)
    (h : List.Lex (· < ·) s.toList t.toList) : s < t := by
  rw [String.lt_iff_toList_lt]
  exact h

theorem lex_append {α : Type} {r : α → α → Prop} :
    ∀ {as bs : List α} (u v : List α), List.Lex r as bs →
      as.length = bs.length → List.Lex r (as ++ u) (bs ++ v) := by
  intro as bs u v h
  induction h with
  | nil => intro hlen; simp at hlen
  | rel h => intro _; exact List.Lex.rel h
  | cons h ih =>
    intro hlen
    simp only [List.length_cons] at hlen
    exact List.Lex.cons (ih (by omega))

theorem lex_append_left {α : Type} {r : α → α → Prop} :
    ∀ (u : List α) {as bs : List α}, List.Lex r as bs →
      List.Lex r (u ++ as) (u ++ bs) := by
  intro u
  induction u with
  | nil => intro as bs h; simpa using h
  | cons x xs ih => intro as bs h; exact List.Lex.cons (ih h)

theorem pad2_lex (i j : Nat) (hij : i < j) (hj : j < 100) :
    List.Lex (· < ·) (pad2 i).toList (pad2 j).toList := by
  have hi : (pad2 i).toList = [specDigit (i / 10), specDigit (i % 10)] := rfl
  have hjj : (pad2 j).toList = [specDigit (j / 10), specDigit (j % 10)] := rfl
  rw [hi, hjj]
  by_cases h : i / 10 = j / 10
  · have hmod : i % 10 < j % 10 := by omega
    rw [h]
    exact List.Lex.cons (List.Lex.rel (specDigit_lt _ _ hmod (by omega)))
  · have hdiv : i / 10 < j / 10 := by omega
    exact List.Lex.rel (specDigit_lt _ _ hdiv (by omega))

theorem sectionFileName_lex (i j : Nat) (s t : String) (hij : i < j)
    (hj : j < 100) :
    List.Lex (· < ·) (sectionFileName i s).toList (sectionFileName j t).toList := by
  have hs : (sectionFileName i s).toList =
      (pad2 i).toList ++ ("_".toList ++ s.toList) := by
    simp [sectionFileName, String.toList, String.data_append]
  have ht : (sectionFileName j t).toList =
      (pad2 j).toList ++ ("_".toList ++ t.toList) := by
    simp [sectionFileName, String.toList, String.data_append]
  rw [hs, ht]
  exact lex_append _ _ (pad2_lex i j hij hj) rfl

theorem sectionFileName_lt (i j : Nat) (s t : String) (hij : i < j)
    (hj : j < 100) : sectionFileName i s < sectionFileName j t :=
  string_lt_of_lex _ _ (sectionFileName_lex i j s t hij hj)

theorem mem_sectionNamesFrom :
    ∀ (slugs : List String) (i : Nat) (y : String),
      y ∈ sectionNamesFrom i slugs →
      ∃ k t, i ≤ k ∧ k < i + slugs.length ∧ y = sectionFileName k t := by
  intro slugs
  induction slugs with
  | nil => intro i y hy; rw [sectionNamesFrom] at hy; simp at hy
  | cons s rest ih =>
    intro i y hy
    rw [sectionNamesFrom] at hy
    rcases List.mem_cons.mp hy with h | h
    · exact ⟨i, s, le_refl i, by simp, h⟩
    · obtain ⟨k, t, h1, h2, h3⟩ := ih (i + 1) y h
      exact ⟨k, t, by omega, by simp only [List.length_cons]; omega, h3⟩

theorem pairwise_sectionNamesFrom :
    ∀ (slugs : List String) (i : Nat), i + slugs.length ≤ 100 →
      List.Pairwise (· < ·) (sectionNamesFrom i slugs) := by
  intro slugs
  induction slugs with
  | nil => intro i _; rw [sectionNamesFrom]; exact List.Pairwise.nil
  | cons s rest ih =>
    intro i hlen
    rw [List.length_cons] at hlen
    rw [sectionNamesFrom]
    refine List.Pairwise.cons ?_ (ih (i + 1) (by omega))
    intro y hy
    obtain ⟨k, t, h1, h2, h3⟩ := mem_sectionNamesFrom rest (i + 1) y hy
    subst h3
    exact sectionFileName_lt i k s t (by omega) (by omega)

/-- Claim C8 (the storage sink itself is modelled from the spec, its
Python source being absent from the snapshot): each per-topic artifact
is stored at the deterministic path
owner_id/notebooks/job_id/sections/NN_topic_slug with NN the zero-padded
plan position; for any plan of at most 100 topics the section file
names in plan order are strictly increasing in the lexical string
order, sorting them lexically returns exactly the generation order, and
full artifact paths of the same job compare the same way. -/
theorem sectionNames_lexical_sort_matches_plan_order :
    ∀ (slugs : List String), slugs.length ≤ 100 →
      List.Pairwise (· < ·) (sectionNames slugs) ∧
      (sectionNames slugs).mergeSort (fun a b => decide (a ≤ b)) =
        sectionNames slugs ∧
      (∀ (owner job s t : String) (i j : Nat), i < j → j < 100 →
        artifactPath owner job i s < artifactPath owner job j t) := by
  intro slugs hlen
  have hpair : List.Pairwise (· < ·) (sectionNames slugs) :=
    pairwise_sectionNamesFrom slugs 0 (by omega)
  refine ⟨hpair, ?_, ?_⟩
  · exact List.mergeSort_eq_self (hpair.imp fun h => le_of_lt h)
  · intro owner job s t i j hij hj
    apply string_lt_of_lex
    have hs : (artifactPath owner job i s).toList =
        (owner ++ "/notebooks/" ++ job ++ "/sections/").toList ++
          (sectionFileName i s).toList := by
      simp [artifactPath, String.toList, String.data_append]
    have ht : (artifactPath owner job j t).toList =
        (owner ++ "/notebooks/" ++ job ++ "/sections/").toList ++
          (sectionFileName j t).toList := by
      simp [artifactPath, String.toList, String.data_append]
    rw [hs, ht]
    exact lex_append_left _ (sectionFileName_lex i j s t hij hj)

/-- Claim C8, witness: the three-topic plan of scenario A stores
00_intro, 01_variables, 02_functions, which sort lexically into exactly
that generation order, and the corresponding artifact paths are ordered
likewise. -/
theorem sectionNames_lexical_sort_matches_plan_order_witness :
    List.Pairwise (· < ·) (sectionNames ["intro", "variables", "functions"]) ∧
    (sectionNames ["intro", "variables", "functions"]).mergeSort
        (fun a b => decide (a ≤ b)) =
      sectionNames ["intro", "variables", "functions"] ∧
    (∀ (owner job s t : String) (i j : Nat), i < j → j < 100 →
      artifactPath owner job i s < artifactPath owner job j t) :=
  sectionNames_lexical_sort_matches_plan_order ["intro", "variables", "functions"]
    (by decide)
